import Mathlib

/-!
Verification of the concurrent Asterisk audio upload server
(`asterisk_server.py`) against its natural-language specification.

The Python source is shallowly embedded: filenames, URL paths and
directories are `List Char`; the filesystem is a map from paths to
entries; the conversion job is a function from an abstract environment
(describing the outcomes of the two external tools and the fallback
copy) to its result pair and a trace of filesystem events.
-/

namespace AsteriskServer

/-- A string in the embedding: a list of characters. -/
abbrev Str := List Char

/-! ## Python string/path primitives used by the server -/

/-- Embedding of Python `s.startswith(p)` (first argument is `s`). -/
def pyStartswith : Str → Str → Bool
  | _, [] => true
  | [], _ :: _ => false
  | c :: l, d :: p => c = d && pyStartswith l p

/-- Embedding of Python `s.lstrip('/')`: drop leading slashes. -/
def lstripSlash (l : Str) : Str := l.dropWhile (fun c => c = '/')

/-- Embedding of Python `os.path.basename`: the part after the last `'/'`. -/
def pyBasename (l : Str) : Str := (l.reverse.takeWhile (fun c => c ≠ '/')).reverse

/-- Whether a list of characters ends with `'/'`. -/
def endsWithSlash (l : Str) : Bool :=
  match l.reverse with
  | [] => false
  | c :: _ => c = '/'

/-- Embedding of Python `os.path.join(a, b)` for two components:
if `b` is absolute it wins; otherwise a separator is inserted unless
`a` is empty or already ends with one. -/
def pyJoin (a b : Str) : Str :=
  if b.head? = some '/' then b
  else if a = [] then b
  else if endsWithSlash a then a ++ b
  else a ++ '/' :: b

/-- Embedding of Python `s.lower()` (exact on ASCII; characters outside
the ASCII letters are left unchanged, which agrees with Python on every
character this development evaluates). -/
def pyLower (l : Str) : Str := l.map Char.toLower

/-- Splits a filename core at its last dot: returns the part before the
last `'.'` and the extension including the dot, or `none` when the core
contains no dot.  Helper for `pySplitext`. -/
def lastDotSplit (core : Str) : Option (Str × Str) :=
  let rev := core.reverse
  let after := rev.takeWhile (fun c => c ≠ '.')
  match rev.dropWhile (fun c => c ≠ '.') with
  | '.' :: pre => some (pre.reverse, '.' :: after.reverse)
  | _ => none

/-- The part of a path up to and including its last `'/'` (empty when
there is no slash); the complement of `pyBasename`. -/
def pyDirPart (l : Str) : Str := (l.reverse.dropWhile (fun c => c ≠ '/')).reverse

/-- Embedding of Python `os.path.splitext`: splits off the extension
starting at the last dot of the basename, except that leading dots of
the basename never start an extension. -/
def pySplitext (q : Str) : Str × Str :=
  let base := pyBasename q
  let dots := base.takeWhile (fun c => c = '.')
  let core := base.dropWhile (fun c => c = '.')
  match lastDotSplit core with
  | none => (q, [])
  | some (c1, ext) => (pyDirPart q ++ dots ++ c1, ext)

/-- Representative model of Python's Unicode-aware `str.isalnum` on a
single character: exact on the ASCII range, and including the non-ASCII
alphanumeric characters evaluated in this development (Python classifies
every Unicode letter and digit as alphanumeric). -/
def pyIsAlnumChar (c : Char) : Bool :=
  c.isAlphanum || c ∈ ['ñ', 'Ñ', 'á', 'é', 'í', 'ó', 'ú']

/-- Embedding of Python `s.isalnum()`: nonempty and every character
alphanumeric. -/
def pyStrIsAlnum (l : Str) : Bool :=
  decide (l ≠ []) && l.all pyIsAlnumChar

/-- Embedding of `filename.replace('_','').replace('-','').replace('.','')`. -/
def stripPunct (l : Str) : Str :=
  l.filter (fun c => ¬ (c = '_' ∨ c = '-' ∨ c = '.'))

/-! ## Server configuration (lines 45-63 of the source) -/

def recordings_dir : Str := "/var/spool/asterisk/recording".toList
def tts_dir : Str := "/tmp/asterisk/tts".toList
def stt_dir : Str := "/tmp/asterisk/stt".toList

/-- `self.max_file_size = 50 * 1024 * 1024`. -/
def max_file_size : Nat := 50 * 1024 * 1024

/-- `self.allowed_extensions = ['.wav', '.mp3', '.ogg']`. -/
def allowed_extensions : List Str := [".wav".toList, ".mp3".toList, ".ogg".toList]

/-- `self.conversion_timeout = 30`. -/
def conversion_timeout : Nat := 30

/-- `self.upload_timeout = 60`. -/
def upload_timeout : Nat := 60

/-- `max_workers=5` of the conversion pool. -/
def max_workers : Nat := 5

/-! ## Path router and upload validator -/

/-- Embedding of `get_target_directory` (source lines 139-146). -/
def get_target_directory (filename : Str) : Str :=
  if pyStartswith filename "tts_".toList then tts_dir
  else if pyStartswith filename "placa_".toList || pyStartswith filename "papeleta_".toList then
    stt_dir
  else recordings_dir

/-- The three logical storage areas of the specification's data model. -/
inductive StorageArea
  | permanent
  | ephemeralClassA
  | ephemeralClassB
deriving DecidableEq

/-- The storage area bound to each configured directory. -/
def areaOfDir (d : Str) : StorageArea :=
  if d = tts_dir then .ephemeralClassA
  else if d = stt_dir then .ephemeralClassB
  else .permanent

/-- Embedding of `validate_file_upload` (source lines 148-160): returns
the `(ok, message)` pair of the Python function. -/
def validate_file_upload (filename : Str) (content_length : Nat) : Bool × Str :=
  if content_length > max_file_size then
    (false, "File too large. Max size: 50.0MB".toList)
  else
    let ext := (pySplitext (pyLower filename)).2
    if ¬ (ext ∈ allowed_extensions) then
      (false, "Invalid file type. Allowed: .wav, .mp3, .ogg".toList)
    else if ¬ pyStrIsAlnum (stripPunct filename) then
      (false, "Invalid filename. Use only alphanumeric characters, hyphens and underscores".toList)
    else (true, "Valid".toList)

example : (validate_file_upload "test.wav".toList 100).1 = true := by decide
example : (validate_file_upload "a b.wav".toList 100).1 = false := by decide
example : (validate_file_upload "../x.wav".toList 100).1 = false := by decide
example : (validate_file_upload "ñ.wav".toList 100).1 = true := by decide
example : (validate_file_upload "x.WAV".toList 100).1 = true := by decide
example : (validate_file_upload ".wav".toList 100).1 = false := by decide
example : (validate_file_upload "a.b.wav".toList 100).1 = true := by decide
example : (validate_file_upload "x.txt".toList 100).1 = false := by decide
example : get_target_directory "tts_x.wav".toList = tts_dir := by decide
example : get_target_directory "placa_y.wav".toList = stt_dir := by decide
example : get_target_directory "plain.wav".toList = recordings_dir := by decide
example : pySplitext "a.b.wav".toList = ("a.b".toList, ".wav".toList) := by decide
example : pySplitext "..wav".toList = ("..wav".toList, []) := by decide
example : pySplitext "/tts/a.wav".toList = ("/tts/a".toList, ".wav".toList) := by decide
example : pyJoin tts_dir [] = "/tmp/asterisk/tts/".toList := by decide
example : pyBasename "/a/b/c.wav".toList = "c.wav".toList := by decide
example : pyBasename "..".toList = "..".toList := by decide

/-! ## Filesystem model and the GET / DELETE handlers -/

/-- A filesystem entry: a regular file with its byte content, or a
directory. -/
inductive Entry
  | file (bytes : List Nat)
  | toolOutput (complete : Bool)
  | dir
deriving DecidableEq

/-- The filesystem: a map from paths to entries. -/
def FS := Str → Option Entry

/-- Pointwise update of the filesystem. -/
def fsUpdate (fs : FS) (p : Str) (e : Option Entry) : FS :=
  fun q => if q = p then e else fs q

/-- Whether an optional entry is a regular file. -/
def isFileEntry : Option Entry → Bool
  | some (.file _) => true
  | _ => false

/-- Response of the GET handler: a served file (`ok` records the
filesystem path that was read, the bytes sent, and the filename placed
in the `Content-Disposition: attachment` header), an error status code,
or the `/status` introspection page. -/
inductive HResp
  | ok (path : Str) (body : List Nat) (attachName : Str)
  | err (code : Nat)
  | statusPage
deriving DecidableEq

/-- Serve one file (embedding of `serve_file` plus the surrounding
`try`/`except` of each GET route, source lines 238-248): a regular file
is sent with status 200 and a `Content-Disposition: attachment` header;
opening a directory raises `IsADirectoryError`, which the route's
`except` clause turns into a 500; a missing entry was already rejected
by the caller's existence check. -/
def serve_file (fs : FS) (file_path : Str) (filename : Str) : HResp :=
  match fs file_path with
  | some (.file b) => .ok file_path b filename
  | _ => .err 500

/-- Embedding of `do_GET` (source lines 162-236, including the
`handle_tts_download` and `handle_stt_download` routes).  `authed` is
the result of `authenticate_request`. -/
def do_GET (authed : Bool) (p : Str) (fs : FS) : HResp :=
  if ¬ authed then .err 401
  else if p = "/status".toList then .statusPage
  else if pyStartswith p "/tts/".toList then
    let filename := pyBasename (p.drop 5)
    let file_path := pyJoin tts_dir filename
    if fs file_path = none then .err 404 else serve_file fs file_path filename
  else if pyStartswith p "/stt/".toList then
    let filename := pyBasename (p.drop 5)
    let file_path := pyJoin stt_dir filename
    if fs file_path = none then .err 404 else serve_file fs file_path filename
  else
    let filename := pyBasename (lstripSlash p)
    if filename = [] then .err 400
    else
      let file_path := pyJoin recordings_dir filename
      if fs file_path = none then .err 404 else serve_file fs file_path filename

/-- Response of the DELETE handler: `deleted` records the filesystem
path that was removed (status 200); `derr` is an error status code. -/
inductive DResp
  | deleted (path : Str)
  | derr (code : Nat)
deriving DecidableEq

/-- Embedding of `do_DELETE` (source lines 271-316).  The handler only
ever resolves names against `recordings_dir`; `os.remove` of a
directory raises, which the `except` clause turns into a 500. -/
def do_DELETE (authed : Bool) (p : Str) (fs : FS) : DResp × FS :=
  if ¬ authed then (.derr 401, fs)
  else
    let filename := pyBasename (lstripSlash p)
    if filename = [] then (.derr 400, fs)
    else
      let file_path := pyJoin recordings_dir filename
      match fs file_path with
      | none => (.derr 404, fs)
      | some (.file _) => (.deleted file_path, fsUpdate fs file_path none)
      | some _ => (.derr 500, fs)

/-! ## The conversion job -/

/-- Outcome of one external tool invocation (`subprocess.run` of sox or
ffmpeg, source lines 417-460): the process succeeded (`returncode == 0`),
exited with an error, was not installed (`FileNotFoundError`), or hit
the 25-second sub-timeout (`subprocess.TimeoutExpired`). -/
inductive ToolOutcome
  | success
  | exitError
  | notFound
  | timedOut
deriving DecidableEq

/-- Environment of one conversion job.  The modelled failure points are
the two tool invocations and the fallback copy; `os.chmod`, logging and
`os.remove` inside `cleanup_temp_file` (which swallows its own
exceptions) are modelled as infallible.  `soxWrote` / `ffmpegWrote`
record whether a failed or timed-out tool run left (partial) output at
its output path before failing — the Python code passes the final path
as the tool's output argument and cannot control this. -/
structure ConvEnv where
  sox : ToolOutcome
  soxWrote : Bool
  ffmpeg : ToolOutcome
  ffmpegWrote : Bool
  copyOk : Bool
deriving DecidableEq

/-- A filesystem side effect of the upload/conversion pipeline.
`toolWrite dst complete` is the external tool writing its output file at
`dst` (`complete = false` for output left behind by a failed or
timed-out run); `copyWrite src dst` is `shutil.copy2`;
`tempWrite p bytes` is the dispatcher saving the uploaded payload;
`removeFile` is `os.remove` via `cleanup_temp_file`; `chmodEv` is
`os.chmod`. -/
inductive FsEvent
  | toolWrite (dst : Str) (complete : Bool)
  | copyWrite (src dst : Str)
  | tempWrite (p : Str) (bytes : List Nat)
  | removeFile (p : Str)
  | chmodEv (p : Str)
deriving DecidableEq

/-- Result messages of the conversion job, verbatim from the source. -/
def soxMsg : Str := "Converted with sox".toList
def ffmpegMsg : Str := "Converted with ffmpeg".toList
def noConvMsg : Str := "Used original file (no conversion)".toList
def convFailMsg : Str := "copy failed".toList

/-- Events of one tool invocation with output path `final`. -/
def toolEvents (outcome : ToolOutcome) (wrote : Bool) (final : Str) : List FsEvent :=
  match outcome with
  | .success => [.toolWrite final true]
  | .notFound => []
  | .exitError => if wrote then [.toolWrite final false] else []
  | .timedOut => if wrote then [.toolWrite final false] else []

/-- Embedding of `convert_audio_with_cleanup` (source lines 411-473):
returns the `(success, message)` pair of the Python function together
with the trace of filesystem events of the job, in order.  Control
flow mirrors the source: sox first; on `returncode != 0`,
`FileNotFoundError` or timeout fall through to ffmpeg; if neither tool
succeeds, fall back to `shutil.copy2` of the original bytes; an
exception from the copy lands in the outer `except`, which cleans the
temp file and returns failure. -/
def convert_audio_with_cleanup (env : ConvEnv) (temp final : Str) :
    (Bool × Str) × List FsEvent :=
  let soxEv := toolEvents env.sox env.soxWrote final
  if env.sox = .success then
    ((true, soxMsg), soxEv ++ [.removeFile temp, .chmodEv final])
  else
    let ffEv := toolEvents env.ffmpeg env.ffmpegWrote final
    if env.ffmpeg = .success then
      ((true, ffmpegMsg), soxEv ++ ffEv ++ [.removeFile temp, .chmodEv final])
    else if env.copyOk then
      ((true, noConvMsg),
        soxEv ++ ffEv ++ [.copyWrite temp final, .removeFile temp, .chmodEv final])
    else
      ((false, convFailMsg), soxEv ++ ffEv ++ [.removeFile temp])

/-- Apply one filesystem event.  `copyWrite` reads the source at
application time (`shutil.copy2`); a missing source would have raised,
which the environment excludes by `copyOk`. -/
def applyEvent (fs : FS) : FsEvent → FS
  | .toolWrite dst complete => fsUpdate fs dst (some (.toolOutput complete))
  | .copyWrite src dst =>
      match fs src with
      | some e => fsUpdate fs dst (some e)
      | none => fs
  | .tempWrite p bytes => fsUpdate fs p (some (.file bytes))
  | .removeFile p => fsUpdate fs p none
  | .chmodEv _ => fs

/-- Apply a trace of filesystem events in order. -/
def applyTrace (fs : FS) (tr : List FsEvent) : FS := tr.foldl applyEvent fs

/-! ## Thread naming, temp paths, and the upload dispatcher -/

/-- Decimal digit character of a digit value. -/
def digitChar : Nat → Char
  | 0 => '0' | 1 => '1' | 2 => '2' | 3 => '3' | 4 => '4'
  | 5 => '5' | 6 => '6' | 7 => '7' | 8 => '8' | _ => '9'

/-- Decimal representation of a natural number as characters
(empty for 0, matching `Nat.digits`; only injectivity and the
digit-class of the characters matter here). -/
def decRepr (n : Nat) : Str := ((Nat.digits 10 n).map digitChar).reverse

/-- Name of the `n`-th connection-handler thread.  `ThreadingMixIn`
spawns `threading.Thread(target=self.process_request_thread, ...)`, and
Python (3.10+) names such a thread `"Thread-N (process_request_thread)"`
with `N` drawn from a process-wide counter, so distinct concurrent
threads carry distinct `N`. -/
def threadName (n : Nat) : Str :=
  "Thread-".toList ++ decRepr n ++ " (process_request_thread)".toList

/-- The temp file name `f"temp_{thread_name}_{filename}"`
(source line 353). -/
def tempName (thread : Str) (filename : Str) : Str :=
  "temp_".toList ++ thread ++ "_".toList ++ filename

/-- The default filename `f'upload_{int(time.time())}.wav'` synthesized
when the `Filename` header is absent (source line 324). -/
def defaultUploadName (now : Nat) : Str :=
  "upload_".toList ++ decRepr now ++ ".wav".toList

/-- The temp path of an upload handled by a thread named `thread` for
target filename `fn` (source lines 350-353). -/
def tempPath (thread fn : Str) : Str :=
  pyJoin (get_target_directory fn) (tempName thread fn)

/-- The final path of filename `fn` (source line 360). -/
def finalPath (fn : Str) : Str := pyJoin (get_target_directory fn) fn

/-- The temp path of an upload handled by connection thread `n` for
target filename `f`. -/
def tempPathOf (n : Nat) (f : Str) : Str := tempPath (threadName n) f

/-- Embedding of `handle_upload_async` (source lines 318-409): returns
the HTTP status code sent and the trace of filesystem events performed
by this request, including those of a conversion job that keeps running
after the dispatcher's 30-second await times out (`future.cancel()`
cannot stop a job that already started; `convTimedOut` says whether
`future.result(timeout=...)` raised `TimeoutError`).  Validation runs
before any filesystem write. -/
def handle_upload_async (now : Nat) (thread : Str) (filenameHdr : Option Str)
    (content_length : Nat) (body : List Nat) (readTime : Nat)
    (convTimedOut : Bool) (env : ConvEnv) : Nat × List FsEvent :=
  let filename := filenameHdr.getD (defaultUploadName now)
  if content_length = 0 then (400, [])
  else if (validate_file_upload filename content_length).1 = false then (400, [])
  else if readTime > upload_timeout then (408, [])
  else
    let target_dir := get_target_directory filename
    let temp := pyJoin target_dir (tempName thread filename)
    let final := pyJoin target_dir filename
    let job := convert_audio_with_cleanup env temp final
    let events := FsEvent.tempWrite temp body :: job.2
    if convTimedOut then (408, events)
    else if job.1.1 then (200, events)
    else (500, events)

example :
    (convert_audio_with_cleanup ⟨.exitError, false, .notFound, false, true⟩
      "t".toList "f".toList).1 = (true, noConvMsg) := by decide
example :
    (convert_audio_with_cleanup ⟨.timedOut, true, .notFound, false, true⟩
      "t".toList "f".toList).2 =
    [.toolWrite "f".toList false, .copyWrite "t".toList "f".toList,
     .removeFile "t".toList, .chmodEv "f".toList] := by decide
example :
    (handle_upload_async 0 "T".toList (some "x.wav".toList) 10 [1] 0 false
      ⟨.success, false, .notFound, false, true⟩).1 = 200 := by decide

/-! ## The conversion worker pool -/

/-- State of the conversion pool together with the dispatcher-side
bookkeeping: which jobs were submitted, are pending in the work queue,
are running on a worker, completed, or were cancelled by
`future.cancel()` after a dispatcher timeout while still pending. -/
structure PoolState where
  submitted : List Nat
  pending : List Nat
  running : List Nat
  done : List Nat
  cancelled : List Nat
deriving DecidableEq

/-- Events of the pool model: a dispatcher submits a fresh job; a free
worker starts the head of the queue (`max_workers` bound); a running
job finishes; a dispatcher whose `future.result` timed out calls
`future.cancel()`, which removes the job from the queue exactly when it
has not started yet (a running job is unaffected, mirroring
`concurrent.futures`). -/
inductive PoolEvt
  | submit (j : Nat)
  | start
  | finish (j : Nat)
  | cancelTimeout (j : Nat)
deriving DecidableEq

/-- One step of the pool model. -/
def poolStep (s : PoolState) : PoolEvt → PoolState
  | .submit j =>
      if j ∈ s.submitted then s
      else ⟨s.submitted ++ [j], s.pending ++ [j], s.running, s.done, s.cancelled⟩
  | .start =>
      match s.pending with
      | [] => s
      | j :: rest =>
          if s.running.length < max_workers then
            ⟨s.submitted, rest, s.running ++ [j], s.done, s.cancelled⟩
          else s
  | .finish j =>
      if j ∈ s.running then
        ⟨s.submitted, s.pending, s.running.erase j, s.done ++ [j], s.cancelled⟩
      else s
  | .cancelTimeout j =>
      if j ∈ s.pending then
        ⟨s.submitted, s.pending.erase j, s.running, s.done, s.cancelled ++ [j]⟩
      else s

/-- The empty pool. -/
def poolInit : PoolState := ⟨[], [], [], [], []⟩

/-- Run the pool model over a list of events. -/
def runPool (evts : List PoolEvt) : PoolState := evts.foldl poolStep poolInit

example :
    runPool [.submit 1, .submit 2, .start, .start, .finish 1] =
      ⟨[1, 2], [], [2], [1], []⟩ := by decide

/-! ## Supporting lemmas -/

/-- The paths an event can modify. -/
def eventWrites : FsEvent → List Str
  | .toolWrite dst _ => [dst]
  | .copyWrite _ dst => [dst]
  | .tempWrite p _ => [p]
  | .removeFile p => [p]
  | .chmodEv _ => []

lemma applyTrace_append (fs : FS) (t1 t2 : List FsEvent) :
    applyTrace fs (t1 ++ t2) = applyTrace (applyTrace fs t1) t2 :=
  List.foldl_append _ _ _ _

lemma applyEvent_preserves (fs : FS) (e : FsEvent) (p : Str) (h : p ∉ eventWrites e) :
    applyEvent fs e p = fs p := by
  cases e with
  | toolWrite dst c =>
      simp [eventWrites] at h
      simp [applyEvent, fsUpdate, h]
  | copyWrite src dst =>
      simp [eventWrites] at h
      cases hs : fs src <;> simp [applyEvent, fsUpdate, hs, h]
  | tempWrite q b =>
      simp [eventWrites] at h
      simp [applyEvent, fsUpdate, h]
  | removeFile q =>
      simp [eventWrites] at h
      simp [applyEvent, fsUpdate, h]
  | chmodEv q => simp [applyEvent]

lemma applyTrace_preserves (fs : FS) (tr : List FsEvent) (p : Str)
    (h : ∀ e ∈ tr, p ∉ eventWrites e) : applyTrace fs tr p = fs p := by
  induction tr generalizing fs with
  | nil => rfl
  | cons e t ih =>
      have he := h e (List.mem_cons_self _ _)
      have ht : ∀ x ∈ t, p ∉ eventWrites x := fun x hx => h x (List.mem_cons_of_mem _ hx)
      calc applyTrace fs (e :: t) p = applyTrace (applyEvent fs e) t p := rfl
        _ = applyEvent fs e p := ih _ ht
        _ = fs p := applyEvent_preserves fs e p he

lemma applyTrace_remove_last (fs : FS) (tr : List FsEvent) (p : Str) :
    applyTrace fs (tr ++ [.removeFile p]) p = none := by
  rw [applyTrace_append]
  simp [applyTrace, applyEvent, fsUpdate]

lemma applyTrace_remove_chmod (fs : FS) (tr : List FsEvent) (p q : Str) :
    applyTrace fs (tr ++ [.removeFile p, .chmodEv q]) p = none := by
  rw [applyTrace_append]
  simp [applyTrace, applyEvent, fsUpdate]

lemma toolEvents_shape (o : ToolOutcome) (w : Bool) (fp : Str) :
    ∀ e ∈ toolEvents o w fp, ∃ c, e = .toolWrite fp c := by
  cases o <;> cases w <;> simp [toolEvents]

lemma toolEvents_writes (o : ToolOutcome) (w : Bool) (fp : Str) :
    ∀ e ∈ toolEvents o w fp, eventWrites e = [fp] := by
  intro e he
  obtain ⟨c, rfl⟩ := toolEvents_shape o w fp e he
  rfl

/-- Prefix predicate basics. -/
lemma pyStartswith_head {f p : Str} {c : Char}
    (h : pyStartswith f (c :: p) = true) : ∃ t, f = c :: t := by
  cases f with
  | nil => simp [pyStartswith] at h
  | cons a l =>
      simp only [pyStartswith, Bool.and_eq_true, decide_eq_true_eq] at h
      exact ⟨l, by rw [h.1]⟩

lemma pyStartswith_ne_head {a b : Char} {t q : Str} (hab : a ≠ b) :
    pyStartswith (a :: t) (b :: q) = false := by
  simp [pyStartswith, hab]

lemma toList_cons_placa : "placa_".toList = 'p' :: "laca_".toList := rfl
lemma toList_cons_papeleta : "papeleta_".toList = 'p' :: "apeleta_".toList := rfl
lemma toList_cons_tts : "tts_".toList = 't' :: "ts_".toList := rfl

/-- A filename with the `placa_` or `papeleta_` prefix does not have the
`tts_` prefix. -/
lemma not_tts_of_stt {f : Str}
    (h : pyStartswith f "placa_".toList = true ∨ pyStartswith f "papeleta_".toList = true) :
    pyStartswith f "tts_".toList = false := by
  rcases h with h | h
  · rw [toList_cons_placa] at h
    obtain ⟨t, rfl⟩ := pyStartswith_head h
    rw [toList_cons_tts]
    exact pyStartswith_ne_head (by decide)
  · rw [toList_cons_papeleta] at h
    obtain ⟨t, rfl⟩ := pyStartswith_head h
    rw [toList_cons_tts]
    exact pyStartswith_ne_head (by decide)

/-- Over-limit declared lengths always fail validation. -/
lemma validate_over_limit (f : Str) :
    (validate_file_upload f (max_file_size + 1)).1 = false := by
  rw [validate_file_upload, if_pos (Nat.lt_succ_self _)]

/-! ## Claim theorems -/

/-- C3: on every exit path of the conversion-job algorithm — tool
success, degraded no-conversion success, or failure — the temp source
file is removed: after the job's event trace is applied, the
filesystem holds nothing at the temp path. -/
theorem c3_temp_always_cleaned (env : ConvEnv) (temp final : Str) (fs : FS) :
    applyTrace fs (convert_audio_with_cleanup env temp final).2 temp = none := by
  simp only [convert_audio_with_cleanup]
  split
  · exact applyTrace_remove_chmod fs _ temp final
  · split
    · exact applyTrace_remove_chmod fs _ temp final
    · split
      · rw [show ∀ a b : List FsEvent, a ++ b ++
              [FsEvent.copyWrite temp final, .removeFile temp, .chmodEv final] =
              (a ++ b ++ [FsEvent.copyWrite temp final]) ++
              [FsEvent.removeFile temp, .chmodEv final] from by simp]
        exact applyTrace_remove_chmod fs _ temp final
      · exact applyTrace_remove_last fs _ temp

/-- C5: a declared length exactly at the configured 50 MiB maximum
passes validation; one byte over fails validation, and the upload
handler then answers 400 (for every filename, header and environment). -/
theorem c5_size_boundary :
    (validate_file_upload "test.wav".toList max_file_size).1 = true ∧
    (∀ f : Str, (validate_file_upload f (max_file_size + 1)).1 = false) ∧
    (∀ (now : Nat) (thread : Str) (fh : Option Str) (body : List Nat) (rt : Nat)
        (cto : Bool) (env : ConvEnv),
        (handle_upload_async now thread fh (max_file_size + 1) body rt cto env).1 = 400) := by
  refine ⟨by decide, validate_over_limit, ?_⟩
  intro now thread fh body rt cto env
  simp only [handle_upload_async]
  rw [if_neg (by simp [max_file_size] : ¬ (max_file_size + 1 = 0)),
    if_pos (validate_over_limit _)]

/-- C6: the storage-area router is a pure function of the filename
prefix: `tts_` names map to EphemeralClassA (the tts directory),
`placa_`/`papeleta_` names map to EphemeralClassB (the stt directory),
all other names map to Permanent (the recordings directory), and the
four example names of the spec route accordingly. -/
theorem c6_router_prefix_pure (f : Str) :
    get_target_directory f = get_target_directory f ∧
    (pyStartswith f "tts_".toList = true →
      get_target_directory f = tts_dir ∧
      areaOfDir (get_target_directory f) = .ephemeralClassA) ∧
    ((pyStartswith f "placa_".toList = true ∨ pyStartswith f "papeleta_".toList = true) →
      get_target_directory f = stt_dir ∧
      areaOfDir (get_target_directory f) = .ephemeralClassB) ∧
    (pyStartswith f "tts_".toList = false → pyStartswith f "placa_".toList = false →
      pyStartswith f "papeleta_".toList = false →
      get_target_directory f = recordings_dir ∧
      areaOfDir (get_target_directory f) = .permanent) ∧
    areaOfDir (get_target_directory "tts_x.wav".toList) = .ephemeralClassA ∧
    areaOfDir (get_target_directory "placa_y.wav".toList) = .ephemeralClassB ∧
    areaOfDir (get_target_directory "papeleta_z.wav".toList) = .ephemeralClassB ∧
    areaOfDir (get_target_directory "plain.wav".toList) = .permanent := by
  refine ⟨rfl, ?_, ?_, ?_, by decide, by decide, by decide, by decide⟩
  · intro h
    have hd : get_target_directory f = tts_dir := by
      rw [get_target_directory, if_pos h]
    rw [hd]
    exact ⟨rfl, by decide⟩
  · intro h
    have hne := not_tts_of_stt h
    have hd : get_target_directory f = stt_dir := by
      rw [get_target_directory, if_neg (by rw [hne]; decide),
        if_pos (by rcases h with h | h <;> rw [h] <;> simp)]
    rw [hd]
    exact ⟨rfl, by decide⟩
  · intro h1 h2 h3
    have hd : get_target_directory f = recordings_dir := by
      rw [get_target_directory, if_neg (by rw [h1]; decide),
        if_neg (by rw [h2, h3]; decide)]
    rw [hd]
    exact ⟨rfl, by decide⟩

/-- C2: if both tools are unavailable or fail (any mix of nonzero exit,
missing binary, or sub-timeout), the job copies the original bytes
unmodified to the final path and returns the distinct
"no conversion performed" success variant; a failure result is returned
exactly when both tools failed and even the unmodified copy could not
be written. -/
theorem c2_graceful_degradation (env : ConvEnv) (temp final : Str) :
    ((convert_audio_with_cleanup env temp final).1.1 = false ↔
      env.sox ≠ .success ∧ env.ffmpeg ≠ .success ∧ env.copyOk = false) ∧
    (env.sox ≠ .success → env.ffmpeg ≠ .success → env.copyOk = true →
      (convert_audio_with_cleanup env temp final).1 = (true, noConvMsg) ∧
      ∀ (fs : FS) (e : Entry), temp ≠ final → fs temp = some e →
        applyTrace fs (convert_audio_with_cleanup env temp final).2 final = some e) := by
  constructor
  · by_cases hs : env.sox = .success
    · simp [convert_audio_with_cleanup, hs]
    · by_cases hf : env.ffmpeg = .success
      · simp [convert_audio_with_cleanup, hs, hf]
      · by_cases hc : env.copyOk = true
        · simp [convert_audio_with_cleanup, hs, hf, hc]
        · simp [convert_audio_with_cleanup, hs, hf, hc,
            Bool.not_eq_true env.copyOk]
  · intro hs hf hc
    have htr : (convert_audio_with_cleanup env temp final).2 =
        (toolEvents env.sox env.soxWrote final ++ toolEvents env.ffmpeg env.ffmpegWrote final)
          ++ [.copyWrite temp final, .removeFile temp, .chmodEv final] := by
      simp [convert_audio_with_cleanup, hs, hf, hc]
    refine ⟨by simp [convert_audio_with_cleanup, hs, hf, hc], ?_⟩
    intro fs e hne hfse
    rw [htr, applyTrace_append]
    have h1 : applyTrace fs
        (toolEvents env.sox env.soxWrote final ++ toolEvents env.ffmpeg env.ffmpegWrote final)
        temp = fs temp := by
      refine applyTrace_preserves fs _ temp ?_
      intro ev hev
      rcases List.mem_append.mp hev with hev | hev
      · rw [toolEvents_writes _ _ _ ev hev]
        simp [hne]
      · rw [toolEvents_writes _ _ _ ev hev]
        simp [hne]
    have hsrc : applyTrace fs
        (toolEvents env.sox env.soxWrote final ++ toolEvents env.ffmpeg env.ffmpegWrote final)
        temp = some e := h1.trans hfse
    simp only [applyTrace, List.foldl_append] at hsrc
    simp [applyTrace, applyEvent, hsrc, fsUpdate, Ne.symm hne]

/-- Concrete environment in which sox exits nonzero and ffmpeg is not
installed, and the fallback copy succeeds. -/
def envNoTools : ConvEnv := ⟨.exitError, false, .notFound, false, true⟩

/-- Filesystem holding only the temp file of the C2 witness. -/
def fsWitnessC2 : FS :=
  fun q => if q = "/var/spool/asterisk/recording/temp_T_x.wav".toList
    then some (.file [7, 8]) else none

/-- Witness for C2: with both tools failing, the job reports the
degraded success variant and the final path ends up holding the
original bytes. -/
theorem c2_graceful_degradation_witness :
    (convert_audio_with_cleanup envNoTools
      "/var/spool/asterisk/recording/temp_T_x.wav".toList
      "/var/spool/asterisk/recording/x.wav".toList).1 = (true, noConvMsg) ∧
    applyTrace fsWitnessC2 (convert_audio_with_cleanup envNoTools
      "/var/spool/asterisk/recording/temp_T_x.wav".toList
      "/var/spool/asterisk/recording/x.wav".toList).2
      "/var/spool/asterisk/recording/x.wav".toList = some (.file [7, 8]) := by
  have h := (c2_graceful_degradation envNoTools
    "/var/spool/asterisk/recording/temp_T_x.wav".toList
    "/var/spool/asterisk/recording/x.wav".toList).2
    (by decide) (by decide) rfl
  exact ⟨h.1, h.2 fsWitnessC2 (.file [7, 8]) (by decide) (by simp [fsWitnessC2])⟩

/-- C7: DELETE resolves every name against the Permanent (recordings)
area only, regardless of prefix: deleting an existing Permanent file
returns 200 and removes exactly that path, a second DELETE of the same
name then returns 404, and any name absent from the recordings
directory — in particular an ephemeral-prefixed name stored only in an
ephemeral area — yields 404 with the filesystem unchanged. -/
theorem c7_delete_permanent_only (p : Str) (fs : FS) :
    (∀ b : List Nat,
      fs (pyJoin recordings_dir (pyBasename (lstripSlash p))) = some (.file b) →
      pyBasename (lstripSlash p) ≠ [] →
      do_DELETE true p fs =
        (.deleted (pyJoin recordings_dir (pyBasename (lstripSlash p))),
          fsUpdate fs (pyJoin recordings_dir (pyBasename (lstripSlash p))) none) ∧
      (do_DELETE true p (do_DELETE true p fs).2).1 = .derr 404) ∧
    (fs (pyJoin recordings_dir (pyBasename (lstripSlash p))) = none →
      pyBasename (lstripSlash p) ≠ [] →
      do_DELETE true p fs = (.derr 404, fs)) := by
  constructor
  · intro b hb hne
    have h1 : do_DELETE true p fs =
        (.deleted (pyJoin recordings_dir (pyBasename (lstripSlash p))),
          fsUpdate fs (pyJoin recordings_dir (pyBasename (lstripSlash p))) none) := by
      simp [do_DELETE, hne, hb]
    refine ⟨h1, ?_⟩
    rw [h1]
    simp [do_DELETE, hne, fsUpdate]
  · intro hb hne
    simp [do_DELETE, hne, hb]

/-- Filesystem of the C7 witness: `placa_x.wav` exists only in the stt
area; `rec.wav` exists in the recordings area. -/
def fsWitnessC7 : FS :=
  fun q =>
    if q = "/tmp/asterisk/stt/placa_x.wav".toList then some (.file [1])
    else if q = "/var/spool/asterisk/recording/rec.wav".toList then some (.file [2])
    else none

/-- Witness for C7: deleting `rec.wav` succeeds and repeats with 404;
deleting `placa_x.wav` answers 404 (it exists only in the stt area)
and leaves the filesystem unchanged. -/
theorem c7_delete_permanent_only_witness :
    do_DELETE true "/rec.wav".toList fsWitnessC7 =
      (.deleted "/var/spool/asterisk/recording/rec.wav".toList,
        fsUpdate fsWitnessC7 "/var/spool/asterisk/recording/rec.wav".toList none) ∧
    (do_DELETE true "/rec.wav".toList (do_DELETE true "/rec.wav".toList fsWitnessC7).2).1 =
      .derr 404 ∧
    do_DELETE true "/placa_x.wav".toList fsWitnessC7 = (.derr 404, fsWitnessC7) := by
  have h1 := (c7_delete_permanent_only "/rec.wav".toList fsWitnessC7).1 [2]
    (by simp [fsWitnessC7]; decide) (by decide)
  have h2 := (c7_delete_permanent_only "/placa_x.wav".toList fsWitnessC7).2
    (by simp [fsWitnessC7]; decide) (by decide)
  exact ⟨by simpa using h1.1, by simpa using h1.2, by simpa using h2⟩

/-- A prefix as existential decomposition. -/
lemma pyStartswith_exists {f q : Str} (h : pyStartswith f q = true) :
    ∃ t, f = q ++ t := by
  induction q generalizing f with
  | nil => exact ⟨f, rfl⟩
  | cons c q ih =>
      obtain ⟨t, rfl⟩ := pyStartswith_head h
      simp only [pyStartswith, Bool.and_eq_true, decide_eq_true_eq] at h
      obtain ⟨t2, rfl⟩ := ih h.2
      exact ⟨t2, rfl⟩

lemma ne_status_of_tts {p : Str} (h : pyStartswith p "/tts/".toList = true) :
    p ≠ "/status".toList := by
  obtain ⟨t, rfl⟩ := pyStartswith_exists h
  intro hp
  rw [show "/tts/".toList = '/' :: 't' :: 't' :: 's' :: '/' :: [] from rfl,
    show "/status".toList = '/' :: 's' :: 't' :: 'a' :: 't' :: 'u' :: 's' :: [] from rfl] at hp
  simp at hp

lemma ne_status_of_stt {p : Str} (h : pyStartswith p "/stt/".toList = true) :
    p ≠ "/status".toList := by
  obtain ⟨t, rfl⟩ := pyStartswith_exists h
  intro hp
  rw [show "/stt/".toList = '/' :: 's' :: 't' :: 't' :: '/' :: [] from rfl,
    show "/status".toList = '/' :: 's' :: 't' :: 'a' :: 't' :: 'u' :: 's' :: [] from rfl] at hp
  simp at hp

lemma not_stt_of_tts {p : Str} (h : pyStartswith p "/tts/".toList = true) :
    pyStartswith p "/stt/".toList = false := by
  obtain ⟨t, rfl⟩ := pyStartswith_exists h
  rw [show "/tts/".toList = '/' :: 't' :: 't' :: 's' :: '/' :: [] from rfl]
  rw [show "/stt/".toList = '/' :: 's' :: 't' :: 't' :: '/' :: [] from rfl]
  simp [pyStartswith]

/-- Unfolding of the GET handler on the `/tts/` route. -/
lemma do_GET_tts_route (p : Str) (fs : FS) (h : pyStartswith p "/tts/".toList = true) :
    do_GET true p fs =
      if fs (pyJoin tts_dir (pyBasename (p.drop 5))) = none then .err 404
      else serve_file fs (pyJoin tts_dir (pyBasename (p.drop 5))) (pyBasename (p.drop 5)) := by
  rw [do_GET, if_neg (by simp), if_neg (ne_status_of_tts h), if_pos h]

/-- Unfolding of the GET handler on the `/stt/` route. -/
lemma do_GET_stt_route (p : Str) (fs : FS) (h : pyStartswith p "/stt/".toList = true)
    (htts : pyStartswith p "/tts/".toList = false) :
    do_GET true p fs =
      if fs (pyJoin stt_dir (pyBasename (p.drop 5))) = none then .err 404
      else serve_file fs (pyJoin stt_dir (pyBasename (p.drop 5))) (pyBasename (p.drop 5)) := by
  rw [do_GET, if_neg (by simp), if_neg (ne_status_of_stt h),
    if_neg (by rw [htts]; decide), if_pos h]

/-- Unfolding of the GET handler on the Permanent route. -/
lemma do_GET_perm_route (p : Str) (fs : FS) (hstat : p ≠ "/status".toList)
    (htts : pyStartswith p "/tts/".toList = false)
    (hstt : pyStartswith p "/stt/".toList = false) :
    do_GET true p fs =
      (if pyBasename (lstripSlash p) = [] then .err 400
       else if fs (pyJoin recordings_dir (pyBasename (lstripSlash p))) = none then .err 404
       else serve_file fs (pyJoin recordings_dir (pyBasename (lstripSlash p)))
         (pyBasename (lstripSlash p))) := by
  rw [do_GET, if_neg (by simp), if_neg hstat, if_neg (by rw [htts]; decide),
    if_neg (by rw [hstt]; decide)]

/-- Filesystem of the C8 counterexample: only the tts directory itself
exists (as a directory), exactly the situation on a freshly started
server. -/
def fsWitnessC8 : FS :=
  fun q => if q = "/tmp/asterisk/tts/".toList then some .dir else none

/-- Filesystem with only the stt directory present. -/
def fsWitnessC8s : FS :=
  fun q => if q = "/tmp/asterisk/stt/".toList then some .dir else none

/-- C8 counterexample: a GET of `/tts/` (empty filename) is answered
500, not 400 — the tts and stt download routes have no empty-filename
check; the empty name resolves to the directory itself, whose
existence check passes, and serving it raises. -/
theorem c8_counterexample :
    do_GET true "/tts/".toList fsWitnessC8 = .err 500 ∧
    do_GET true "/tts/".toList fsWitnessC8 ≠ .err 400 ∧
    do_GET true "/stt/".toList fsWitnessC8s = .err 500 ∧
    do_GET true "/stt/".toList fsWitnessC8s ≠ .err 400 := by
  refine ⟨?_, ?_, ?_, ?_⟩ <;> decide

/-- C8 (amended): every authenticated GET download route does an
existence check and serves the file bytes with a
`Content-Disposition: attachment` header, answering 404 when absent;
the empty-filename 400 applies only to the Permanent route — the tts
and stt routes never answer 400 (an empty name there resolves to the
directory path itself). -/
theorem c8_download_routes (p : Str) (fs : FS) :
    (do_GET false p fs = .err 401) ∧
    (p ≠ "/status".toList → pyStartswith p "/tts/".toList = false →
      pyStartswith p "/stt/".toList = false →
      (pyBasename (lstripSlash p) = [] → do_GET true p fs = .err 400) ∧
      (fs (pyJoin recordings_dir (pyBasename (lstripSlash p))) = none →
        pyBasename (lstripSlash p) ≠ [] → do_GET true p fs = .err 404) ∧
      (∀ b, fs (pyJoin recordings_dir (pyBasename (lstripSlash p))) = some (.file b) →
        pyBasename (lstripSlash p) ≠ [] →
        do_GET true p fs =
          .ok (pyJoin recordings_dir (pyBasename (lstripSlash p))) b
            (pyBasename (lstripSlash p)))) ∧
    (pyStartswith p "/tts/".toList = true →
      (fs (pyJoin tts_dir (pyBasename (p.drop 5))) = none → do_GET true p fs = .err 404) ∧
      (∀ b, fs (pyJoin tts_dir (pyBasename (p.drop 5))) = some (.file b) →
        do_GET true p fs =
          .ok (pyJoin tts_dir (pyBasename (p.drop 5))) b (pyBasename (p.drop 5)))) ∧
    (pyStartswith p "/stt/".toList = true → pyStartswith p "/tts/".toList = false →
      (fs (pyJoin stt_dir (pyBasename (p.drop 5))) = none → do_GET true p fs = .err 404) ∧
      (∀ b, fs (pyJoin stt_dir (pyBasename (p.drop 5))) = some (.file b) →
        do_GET true p fs =
          .ok (pyJoin stt_dir (pyBasename (p.drop 5))) b (pyBasename (p.drop 5)))) ∧
    (∀ fs2 : FS, do_GET true "/tts/".toList fs2 ≠ .err 400) ∧
    (∀ fs2 : FS, do_GET true "/stt/".toList fs2 ≠ .err 400) := by
  refine ⟨by simp [do_GET], ?_, ?_, ?_, ?_, ?_⟩
  · intro hstat htts hstt
    rw [do_GET_perm_route p fs hstat htts hstt]
    refine ⟨fun h => by rw [if_pos h], fun h hne => by rw [if_neg hne, if_pos h], ?_⟩
    intro b hb hne
    rw [if_neg hne, if_neg (by rw [hb]; simp), serve_file, hb]
  · intro h
    rw [do_GET_tts_route p fs h]
    refine ⟨fun hn => by rw [if_pos hn], ?_⟩
    intro b hb
    rw [if_neg (by rw [hb]; simp), serve_file, hb]
  · intro h htts
    rw [do_GET_stt_route p fs h htts]
    refine ⟨fun hn => by rw [if_pos hn], ?_⟩
    intro b hb
    rw [if_neg (by rw [hb]; simp), serve_file, hb]
  · intro fs2
    rw [do_GET_tts_route _ fs2 (by decide),
      show pyJoin tts_dir (pyBasename (("/tts/".toList).drop 5)) =
        "/tmp/asterisk/tts/".toList from by decide]
    cases hb : fs2 "/tmp/asterisk/tts/".toList with
    | none => simp
    | some e =>
        simp at hb
        cases e <;> simp [serve_file, hb]
  · intro fs2
    rw [do_GET_stt_route _ fs2 (by decide) (by decide),
      show pyJoin stt_dir (pyBasename (("/stt/".toList).drop 5)) =
        "/tmp/asterisk/stt/".toList from by decide]
    cases hb : fs2 "/tmp/asterisk/stt/".toList with
    | none => simp
    | some e =>
        simp at hb
        cases e <;> simp [serve_file, hb]

/-- Filesystem of the C8 witness: one file in each of the three
areas. -/
def fsWitnessC8w : FS :=
  fun q =>
    if q = "/var/spool/asterisk/recording/a.wav".toList then some (.file [1])
    else if q = "/tmp/asterisk/tts/tts_b.wav".toList then some (.file [2])
    else if q = "/tmp/asterisk/stt/placa_c.wav".toList then some (.file [3])
    else none

/-- Witness for C8 on all three routes, both present and absent
files, plus the Permanent empty-filename 400. -/
theorem c8_download_routes_witness :
    do_GET true "/a.wav".toList fsWitnessC8w =
      .ok "/var/spool/asterisk/recording/a.wav".toList [1] "a.wav".toList ∧
    do_GET true "/tts/tts_b.wav".toList fsWitnessC8w =
      .ok "/tmp/asterisk/tts/tts_b.wav".toList [2] "tts_b.wav".toList ∧
    do_GET true "/stt/placa_c.wav".toList fsWitnessC8w =
      .ok "/tmp/asterisk/stt/placa_c.wav".toList [3] "placa_c.wav".toList ∧
    do_GET true "/missing.wav".toList fsWitnessC8w = .err 404 ∧
    do_GET true "/".toList fsWitnessC8w = .err 400 := by
  refine ⟨?_, ?_, ?_, ?_, ?_⟩
  · exact ((c8_download_routes "/a.wav".toList fsWitnessC8w).2.1 (by decide) (by decide)
      (by decide)).2.2 [1] (by simp [fsWitnessC8w]; decide) (by decide)
  · exact ((c8_download_routes "/tts/tts_b.wav".toList fsWitnessC8w).2.2.1 (by decide)).2 [2]
      (by simp [fsWitnessC8w]; decide)
  · exact ((c8_download_routes "/stt/placa_c.wav".toList fsWitnessC8w).2.2.2.1 (by decide)
      (by decide)).2 [3] (by simp [fsWitnessC8w]; decide)
  · exact ((c8_download_routes "/missing.wav".toList fsWitnessC8w).2.1 (by decide) (by decide)
      (by decide)).2.1 (by simp [fsWitnessC8w]; decide) (by decide)
  · exact ((c8_download_routes "/".toList fsWitnessC8w).2.1 (by decide) (by decide)
      (by decide)).1 (by decide)

/-! ## Validator characterization (C4) -/

/-- The filename character class named by the specification,
`[A-Za-z0-9_.-]`, by ASCII code point. -/
def specAllowedChar (c : Char) : Bool :=
  (65 ≤ c.toNat && c.toNat ≤ 90) || (97 ≤ c.toNat && c.toNat ≤ 122) ||
    (48 ≤ c.toNat && c.toNat ≤ 57) || c.toNat = 95 || c.toNat = 46 || c.toNat = 45

lemma isAlphanum_toNat (c : Char) :
    c.isAlphanum = ((65 ≤ c.toNat && c.toNat ≤ 90) || (97 ≤ c.toNat && c.toNat ≤ 122)
      || (48 ≤ c.toNat && c.toNat ≤ 57)) := rfl

/-- An ASCII character outside the `[A-Za-z0-9_.-]` class is neither
Python-alphanumeric nor one of the three stripped punctuation marks. -/
lemma ascii_outside_class (c : Char) (hlt : c.toNat < 128)
    (hs : specAllowedChar c = false) :
    pyIsAlnumChar c = false ∧ ¬ (c = '_' ∨ c = '-' ∨ c = '.') := by
  simp only [specAllowedChar, Bool.or_eq_false_iff, Bool.and_eq_false_iff,
    decide_eq_false_iff_not, not_le] at hs
  constructor
  · simp only [pyIsAlnumChar, Bool.or_eq_false_iff]
    constructor
    · rw [isAlphanum_toNat]
      simp only [Bool.or_eq_false_iff, Bool.and_eq_false_iff,
        decide_eq_false_iff_not, not_le]
      omega
    · simp only [List.mem_cons, List.not_mem_nil, or_false, decide_eq_false_iff_not]
      intro hmem
      rcases hmem with rfl | rfl | rfl | rfl | rfl | rfl | rfl <;> simp at hlt
  · intro hp
    rcases hp with rfl | rfl | rfl <;> simp at hs

lemma strip_mem {c : Char} {f : Str} :
    c ∈ stripPunct f ↔ c ∈ f ∧ ¬ (c = '_' ∨ c = '-' ∨ c = '.') := by
  simp [stripPunct, List.mem_filter]

lemma pyStrIsAlnum_false_iff {l : Str} :
    pyStrIsAlnum l = false ↔ l = [] ∨ ∃ c ∈ l, pyIsAlnumChar c = false := by
  rw [pyStrIsAlnum]
  rcases h : l.all pyIsAlnumChar with _ | _
  · simp only [Bool.and_false, List.all_eq_false] at *
    constructor
    · intro _
      obtain ⟨c, hc, hb⟩ := h
      exact Or.inr ⟨c, hc, by simpa using hb⟩
    · intro _
      trivial
  · simp only [Bool.and_true, decide_eq_false_iff_not, not_not]
    rw [List.all_eq_true] at h
    constructor
    · exact Or.inl
    · rintro (hnil | ⟨c, hc, hb⟩)
      · exact hnil
      · have := h c hc
        rw [hb] at this
        cases this

lemma lastDotSplit_concat {core c1 ext : Str}
    (h : lastDotSplit core = some (c1, ext)) : c1 ++ ext = core := by
  simp only [lastDotSplit] at h
  rcases hd : core.reverse.dropWhile (fun c => c ≠ '.') with _ | ⟨a, pre⟩
  · rw [hd] at h
    simp at h
  · have ha : a = '.' := by
      have h2 := List.head?_dropWhile_not (p := fun c => c ≠ '.') core.reverse
      rw [hd] at h2
      simpa using h2
    subst ha
    rw [hd] at h
    simp only [Option.some_inj, Prod.mk.injEq] at h
    obtain ⟨h1, h2⟩ := h
    have hsplit := List.takeWhile_append_dropWhile
      (p := fun c => c ≠ '.') (l := core.reverse)
    rw [hd] at hsplit
    have hc : core = (core.reverse.takeWhile (fun c => c ≠ '.') ++ '.' :: pre).reverse := by
      rw [hsplit, List.reverse_reverse]
    rw [hc, List.reverse_append, List.reverse_cons, ← h1, ← h2]
    simp

lemma dirPart_basename (q : Str) : pyDirPart q ++ pyBasename q = q := by
  rw [pyDirPart, pyBasename, ← List.reverse_append, List.takeWhile_append_dropWhile,
    List.reverse_reverse]

lemma splitext_concat (q : Str) : (pySplitext q).1 ++ (pySplitext q).2 = q := by
  simp only [pySplitext]
  rcases hl : lastDotSplit ((pyBasename q).dropWhile (fun c => c = '.')) with _ | ⟨c1, ext⟩
  · simp
  · simp only []
    have hce := lastDotSplit_concat hl
    rw [List.append_assoc, List.append_assoc, hce, List.takeWhile_append_dropWhile,
      dirPart_basename]

/-- When the (lowercased) filename carries an allowed extension, its
last character is one that survives the punctuation strip — so the
stripped filename is never empty. -/
lemma ext_allowed_not_punct (f : Str)
    (h : (pySplitext (pyLower f)).2 ∈ allowed_extensions) :
    ∃ d ∈ f, ¬ (d = '_' ∨ d = '-' ∨ d = '.') := by
  have hq := splitext_concat (pyLower f)
  simp only [allowed_extensions, List.mem_cons, List.not_mem_nil, or_false] at h
  have hlast : ∃ lc, (pyLower f).reverse.head? = some lc ∧
      (lc = 'v' ∨ lc = '3' ∨ lc = 'g') := by
    rcases h with h | h | h
    · refine ⟨'v', ?_, Or.inl rfl⟩
      rw [← hq, h, List.reverse_append,
        show (".wav".toList).reverse = 'v' :: 'a' :: 'w' :: ['.'] from by decide]
      rfl
    · refine ⟨'3', ?_, Or.inr (Or.inl rfl)⟩
      rw [← hq, h, List.reverse_append,
        show (".mp3".toList).reverse = '3' :: 'p' :: 'm' :: ['.'] from by decide]
      rfl
    · refine ⟨'g', ?_, Or.inr (Or.inr rfl)⟩
      rw [← hq, h, List.reverse_append,
        show (".ogg".toList).reverse = 'g' :: 'g' :: 'o' :: ['.'] from by decide]
      rfl
  obtain ⟨lc, hh, hlc3⟩ := hlast
  rw [show pyLower f = f.map Char.toLower from rfl, ← List.map_reverse,
    List.head?_map] at hh
  obtain ⟨d, hd, hdl⟩ := Option.map_eq_some'.mp hh
  refine ⟨d, List.mem_reverse.mp (List.mem_of_mem_head? hd), ?_⟩
  intro hp
  rcases hp with rfl | rfl | rfl <;> rw [← hdl] at hlc3 <;> revert hlc3 <;> decide

/-- C4 counterexample: `"ñ.wav"` (with a declared length of 100 bytes)
passes the upload validator even though `'ñ'` lies outside the
`[A-Za-z0-9_.-]` class the claim names — Python's `str.isalnum` is
Unicode-aware and accepts it. -/
theorem c4_counterexample :
    (validate_file_upload "ñ.wav".toList 100).1 = true ∧
    'ñ' ∈ "ñ.wav".toList ∧ specAllowedChar 'ñ' = false := by decide

/-- C4 (amended): the validator fails exactly when the declared length
exceeds 50 MiB, or the extension is not an allowed one
(case-insensitively), or the filename contains a character that is
neither Python-alphanumeric (Unicode-aware `isalnum`) nor one of
`_ - .`; consequently every filename containing an ASCII character
outside `[A-Za-z0-9_.-]` — in particular `/`, spaces and control
characters — fails validation, and the upload handler then answers 400
before any filesystem write. -/
theorem c4_validator_characterization (f : Str) (len : Nat) :
    ((validate_file_upload f len).1 = false ↔
      len > max_file_size ∨ (pySplitext (pyLower f)).2 ∉ allowed_extensions ∨
        ∃ c ∈ f, pyIsAlnumChar c = false ∧ ¬ (c = '_' ∨ c = '-' ∨ c = '.')) ∧
    ((∃ c ∈ f, c.toNat < 128 ∧ specAllowedChar c = false) →
      (validate_file_upload f len).1 = false) ∧
    ((∃ c ∈ f, c.toNat < 128 ∧ specAllowedChar c = false) →
      ∀ (now : Nat) (thread : Str) (body : List Nat) (rt : Nat) (cto : Bool) (env : ConvEnv),
        handle_upload_async now thread (some f) len body rt cto env = (400, [])) := by
  have hiff : (validate_file_upload f len).1 = false ↔
      len > max_file_size ∨ (pySplitext (pyLower f)).2 ∉ allowed_extensions ∨
        ∃ c ∈ f, pyIsAlnumChar c = false ∧ ¬ (c = '_' ∨ c = '-' ∨ c = '.') := by
    rw [validate_file_upload]
    by_cases h1 : len > max_file_size
    · simp [h1]
    · rw [if_neg h1]
      by_cases h2 : (pySplitext (pyLower f)).2 ∈ allowed_extensions
      · rw [if_neg (by simpa using h2)]
        by_cases h3 : pyStrIsAlnum (stripPunct f) = true
        · rw [if_neg (by simpa using h3)]
          constructor
          · intro habs
            simp at habs
          · rintro (h | h | ⟨c, hc, hal, hpu⟩)
            · exact absurd h h1
            · exact absurd h2 h
            · have hcs : c ∈ stripPunct f := strip_mem.mpr ⟨hc, hpu⟩
              have hall := (Bool.and_eq_true _ _).mp h3
              have := (List.all_eq_true.mp hall.2) c hcs
              rw [hal] at this
              cases this
        · rw [if_pos (by simpa using h3)]
          have h3' : pyStrIsAlnum (stripPunct f) = false := by
            simpa using h3
          rcases pyStrIsAlnum_false_iff.mp h3' with hnil | ⟨c, hcs, hal⟩
          · obtain ⟨d, hdf, hdp⟩ := ext_allowed_not_punct f h2
            have : d ∈ stripPunct f := strip_mem.mpr ⟨hdf, hdp⟩
            rw [hnil] at this
            cases this
          · have hc := strip_mem.mp hcs
            constructor
            · intro _
              exact Or.inr (Or.inr ⟨c, hc.1, hal, hc.2⟩)
            · intro _
              rfl
      · rw [if_pos (by simpa using h2)]
        simp [h2]
  refine ⟨hiff, ?_, ?_⟩
  · rintro ⟨c, hc, hlt, hs⟩
    have hbad := ascii_outside_class c hlt hs
    exact hiff.mpr (Or.inr (Or.inr ⟨c, hc, hbad.1, hbad.2⟩))
  · rintro hex now thread body rt cto env
    obtain ⟨c, hc, hlt, hs⟩ := hex
    have hbad := ascii_outside_class c hlt hs
    have hv : (validate_file_upload f len).1 = false :=
      hiff.mpr (Or.inr (Or.inr ⟨c, hc, hbad.1, hbad.2⟩))
    by_cases hz : len = 0
    · simp [handle_upload_async, hz]
    · simp [handle_upload_async, hz, hv]

/-- Witness for C4: a filename containing a space fails validation and
the upload handler answers 400 with no filesystem write. -/
theorem c4_validator_characterization_witness :
    (validate_file_upload "a b.wav".toList 100).1 = false ∧
    handle_upload_async 0 "T".toList (some "a b.wav".toList) 100 [1] 0 false
      ⟨.success, false, .notFound, false, true⟩ = (400, []) := by
  have h := c4_validator_characterization "a b.wav".toList 100
  exact ⟨h.2.1 ⟨' ', by decide, by decide, by decide⟩,
    h.2.2 ⟨' ', by decide, by decide, by decide⟩ 0 "T".toList [1] 0 false
      ⟨.success, false, .notFound, false, true⟩⟩

/-! ## Write-confinement analysis (C1) -/

lemma gtd_mem (f : Str) : get_target_directory f = recordings_dir ∨
    get_target_directory f = tts_dir ∨ get_target_directory f = stt_dir := by
  rw [get_target_directory]
  split
  · exact Or.inr (Or.inl rfl)
  · split
    · exact Or.inr (Or.inr rfl)
    · exact Or.inl rfl

lemma dir_facts (d : Str) (h : d = recordings_dir ∨ d = tts_dir ∨ d = stt_dir) :
    d ≠ [] ∧ endsWithSlash d = false := by
  rcases h with rfl | rfl | rfl <;> exact ⟨by decide, by decide⟩

lemma pyJoin_not_slash (d b : Str) (hd : d ≠ []) (hs : endsWithSlash d = false)
    (hb : b.head? ≠ some '/') : pyJoin d b = d ++ '/' :: b := by
  rw [pyJoin, if_neg hb, if_neg hd, if_neg (by rw [hs]; exact Bool.false_ne_true)]

lemma pyJoin_cases (d b : Str) (hd : d ≠ []) (hs : endsWithSlash d = false) :
    pyJoin d b = b ∨ pyJoin d b = d ++ '/' :: b := by
  rw [pyJoin]
  by_cases hb : b.head? = some '/'
  · rw [if_pos hb]
    exact Or.inl rfl
  · rw [if_neg hb, if_neg hd, if_neg (by rw [hs]; exact Bool.false_ne_true)]
    exact Or.inr rfl

lemma tempName_not_slash (t f : Str) : (tempName t f).head? ≠ some '/' := by
  intro hx
  simp [tempName] at hx

lemma tempName_ne (t f : Str) : tempName t f ≠ f := by
  intro h
  have := congrArg List.length h
  simp [tempName] at this
  omega

lemma tempPath_ne_finalPath (thread fn : Str) : tempPath thread fn ≠ finalPath fn := by
  obtain ⟨hd, hs⟩ := dir_facts _ (gtd_mem fn)
  intro heq
  have hlen := congrArg List.length heq
  rw [tempPath, finalPath,
    pyJoin_not_slash _ _ hd hs (tempName_not_slash thread fn)] at hlen
  rcases pyJoin_cases (get_target_directory fn) fn hd hs with h | h <;>
    rw [h] at hlen <;> simp [tempName] at hlen <;> omega

lemma toolEvents_types (o : ToolOutcome) (w : Bool) (fp : Str) :
    ∀ e ∈ toolEvents o w fp,
      e = .toolWrite fp true ∨ (e = .toolWrite fp false ∧ w = true) := by
  cases o <;> cases w <;> intro e he <;> simp [toolEvents] at he <;> simp [he]

/-- Every event of a conversion job touches only the temp path and the
final path, in a constrained shape; an incomplete tool write can occur
only when one of the failed tool runs left output behind. -/
lemma convert_events_types (env : ConvEnv) (temp final : Str) :
    ∀ e ∈ (convert_audio_with_cleanup env temp final).2,
      e = .removeFile temp ∨ e = .chmodEv final ∨ e = .copyWrite temp final ∨
        e = .toolWrite final true ∨
        (e = .toolWrite final false ∧ (env.soxWrote = true ∨ env.ffmpegWrote = true)) := by
  intro e he
  simp only [convert_audio_with_cleanup] at he
  split at he
  · simp only [List.mem_append, List.mem_cons, List.not_mem_nil, or_false] at he
    rcases he with he | he | he
    · rcases toolEvents_types _ _ _ e he with h | ⟨h, hw⟩
      · exact Or.inr (Or.inr (Or.inr (Or.inl h)))
      · exact Or.inr (Or.inr (Or.inr (Or.inr ⟨h, Or.inl hw⟩)))
    · exact Or.inl he
    · exact Or.inr (Or.inl he)
  · split at he
    · simp only [List.mem_append, List.mem_cons, List.not_mem_nil, or_false] at he
      rcases he with (he | he) | he | he
      · rcases toolEvents_types _ _ _ e he with h | ⟨h, hw⟩
        · exact Or.inr (Or.inr (Or.inr (Or.inl h)))
        · exact Or.inr (Or.inr (Or.inr (Or.inr ⟨h, Or.inl hw⟩)))
      · rcases toolEvents_types _ _ _ e he with h | ⟨h, hw⟩
        · exact Or.inr (Or.inr (Or.inr (Or.inl h)))
        · exact Or.inr (Or.inr (Or.inr (Or.inr ⟨h, Or.inr hw⟩)))
      · exact Or.inl he
      · exact Or.inr (Or.inl he)
    · split at he
      · simp only [List.mem_append, List.mem_cons, List.not_mem_nil, or_false] at he
        rcases he with (he | he) | he | he | he
        · rcases toolEvents_types _ _ _ e he with h | ⟨h, hw⟩
          · exact Or.inr (Or.inr (Or.inr (Or.inl h)))
          · exact Or.inr (Or.inr (Or.inr (Or.inr ⟨h, Or.inl hw⟩)))
        · rcases toolEvents_types _ _ _ e he with h | ⟨h, hw⟩
          · exact Or.inr (Or.inr (Or.inr (Or.inl h)))
          · exact Or.inr (Or.inr (Or.inr (Or.inr ⟨h, Or.inr hw⟩)))
        · exact Or.inr (Or.inr (Or.inl he))
        · exact Or.inl he
        · exact Or.inr (Or.inl he)
      · simp only [List.mem_append, List.mem_cons, List.not_mem_nil, or_false] at he
        rcases he with (he | he) | he
        · rcases toolEvents_types _ _ _ e he with h | ⟨h, hw⟩
          · exact Or.inr (Or.inr (Or.inr (Or.inl h)))
          · exact Or.inr (Or.inr (Or.inr (Or.inr ⟨h, Or.inl hw⟩)))
        · rcases toolEvents_types _ _ _ e he with h | ⟨h, hw⟩
          · exact Or.inr (Or.inr (Or.inr (Or.inl h)))
          · exact Or.inr (Or.inr (Or.inr (Or.inr ⟨h, Or.inr hw⟩)))
        · exact Or.inl he

/-- The upload handler's trace is either empty (failure before any
write) or the temp-payload write followed by the conversion job's
trace. -/
lemma handler_trace_cases (now : Nat) (thread fn : Str) (len : Nat) (body : List Nat)
    (rt : Nat) (cto : Bool) (env : ConvEnv) :
    (handle_upload_async now thread (some fn) len body rt cto env).2 = [] ∨
    (handle_upload_async now thread (some fn) len body rt cto env).2 =
      .tempWrite (tempPath thread fn) body ::
        (convert_audio_with_cleanup env (tempPath thread fn) (finalPath fn)).2 := by
  simp only [handle_upload_async, Option.getD_some]
  split
  · exact Or.inl rfl
  · split
    · exact Or.inl rfl
    · split
      · exact Or.inl rfl
      · split
        · exact Or.inr rfl
        · split
          · exact Or.inr rfl
          · exact Or.inr rfl

/-- C1 counterexample: in an upload whose dispatcher await times out
(status 408) while sox also timed out after writing partial output, the
job's trace contains an incomplete write at the final destination path —
which differs from the temp path — so partial writes are NOT confined
to the temp path. -/
theorem c1_counterexample :
    (handle_upload_async 0 "T".toList (some "x.wav".toList) 100 [1] 0 true
        ⟨.timedOut, true, .notFound, false, true⟩).1 = 408 ∧
    FsEvent.toolWrite "/var/spool/asterisk/recording/x.wav".toList false ∈
      (handle_upload_async 0 "T".toList (some "x.wav".toList) 100 [1] 0 true
        ⟨.timedOut, true, .notFound, false, true⟩).2 ∧
    "/var/spool/asterisk/recording/x.wav".toList ≠
      "/var/spool/asterisk/recording/temp_T_x.wav".toList ∧
    tempPath "T".toList "x.wav".toList =
      "/var/spool/asterisk/recording/temp_T_x.wav".toList ∧
    finalPath "x.wav".toList = "/var/spool/asterisk/recording/x.wav".toList := by
  refine ⟨?_, ?_, ?_, ?_, ?_⟩ <;> decide

/-- C1 (amended): the uploaded raw bytes are written only to a temp
path whose name is distinguishable from (and never equal to) the final
name; the conversion tools and the fallback copy, however, write
directly at the final destination path, so a failed or timed-out tool
run that leaves output behind puts partial data at the final path
before the job completes.  When neither failed tool run leaves output,
no incomplete write ever occurs.  This holds for every upload, also
when the dispatcher's await times out while the job keeps running, and
an absent `Filename` header behaves exactly like the synthesized
default name. -/
theorem c1_writes_confinement (now : Nat) (thread fn : Str) (len : Nat)
    (body : List Nat) (rt : Nat) (cto : Bool) (env : ConvEnv) :
    handle_upload_async now thread none len body rt cto env =
      handle_upload_async now thread (some (defaultUploadName now)) len body rt cto env ∧
    tempName thread fn ≠ fn ∧
    tempPath thread fn ≠ finalPath fn ∧
    (∀ p b, FsEvent.tempWrite p b ∈
        (handle_upload_async now thread (some fn) len body rt cto env).2 →
      p = tempPath thread fn ∧ b = body) ∧
    (∀ p c, FsEvent.toolWrite p c ∈
        (handle_upload_async now thread (some fn) len body rt cto env).2 →
      p = finalPath fn) ∧
    (∀ s d2, FsEvent.copyWrite s d2 ∈
        (handle_upload_async now thread (some fn) len body rt cto env).2 →
      s = tempPath thread fn ∧ d2 = finalPath fn) ∧
    (env.soxWrote = false → env.ffmpegWrote = false →
      ∀ p, FsEvent.toolWrite p false ∉
        (handle_upload_async now thread (some fn) len body rt cto env).2) := by
  refine ⟨rfl, tempName_ne thread fn, tempPath_ne_finalPath thread fn, ?_, ?_, ?_, ?_⟩
  · intro p b hm
    rcases handler_trace_cases now thread fn len body rt cto env with h | h <;> rw [h] at hm
    · cases hm
    · rcases List.mem_cons.mp hm with he | he
      · cases he
        exact ⟨rfl, rfl⟩
      · rcases convert_events_types _ _ _ _ he with h2 | h2 | h2 | h2 | ⟨h2, _⟩ <;>
          cases h2
  · intro p c hm
    rcases handler_trace_cases now thread fn len body rt cto env with h | h <;> rw [h] at hm
    · cases hm
    · rcases List.mem_cons.mp hm with he | he
      · cases he
      · rcases convert_events_types _ _ _ _ he with h2 | h2 | h2 | h2 | ⟨h2, _⟩ <;>
          cases h2 <;> rfl
  · intro s d2 hm
    rcases handler_trace_cases now thread fn len body rt cto env with h | h <;> rw [h] at hm
    · cases hm
    · rcases List.mem_cons.mp hm with he | he
      · cases he
      · rcases convert_events_types _ _ _ _ he with h2 | h2 | h2 | h2 | ⟨h2, _⟩ <;>
          cases h2
        exact ⟨rfl, rfl⟩
  · intro hsw hfw p hm
    rcases handler_trace_cases now thread fn len body rt cto env with h | h <;> rw [h] at hm
    · cases hm
    · rcases List.mem_cons.mp hm with he | he
      · cases he
      · rcases convert_events_types _ _ _ _ he with h2 | h2 | h2 | h2 | ⟨h2, hw⟩ <;>
          cases h2
        rcases hw with hw | hw
        · rw [hsw] at hw
          cases hw
        · rw [hfw] at hw
          cases hw

/-- Witness for C1 at a concrete upload with no tool output left
behind: no incomplete write occurs, and the temp path differs from the
final path. -/
theorem c1_writes_confinement_witness :
    tempPath "T".toList "x.wav".toList ≠ finalPath "x.wav".toList ∧
    FsEvent.toolWrite "/var/spool/asterisk/recording/x.wav".toList false ∉
      (handle_upload_async 0 "T".toList (some "x.wav".toList) 100 [1] 0 false
        ⟨.notFound, false, .notFound, false, true⟩).2 := by
  have h := c1_writes_confinement 0 "T".toList "x.wav".toList 100 [1] 0 false
    ⟨.notFound, false, .notFound, false, true⟩
  exact ⟨h.2.2.1, h.2.2.2.2.2.2 rfl rfl _⟩

/-! ## Temp-path uniqueness and pool conservation (C9) -/

lemma digitChar_isDigit : ∀ d, d < 10 → (digitChar d).isDigit = true := by decide

lemma digitChar_inj : ∀ a, a < 10 → ∀ b, b < 10 → digitChar a = digitChar b → a = b := by
  decide

lemma decRepr_digits (n : Nat) : ∀ c ∈ decRepr n, c.isDigit = true := by
  intro c hc
  rw [decRepr, List.mem_reverse, List.mem_map] at hc
  obtain ⟨d, hd, rfl⟩ := hc
  exact digitChar_isDigit d (Nat.digits_lt_base (by norm_num) hd)

lemma map_digitChar_inj (l₁ l₂ : List Nat) (h₁ : ∀ d ∈ l₁, d < 10) (h₂ : ∀ d ∈ l₂, d < 10)
    (h : l₁.map digitChar = l₂.map digitChar) : l₁ = l₂ := by
  induction l₁ generalizing l₂ with
  | nil => cases l₂ with
    | nil => rfl
    | cons b t => simp at h
  | cons a t ih =>
      cases l₂ with
      | nil => simp at h
      | cons b t2 =>
          simp only [List.map_cons, List.cons.injEq] at h
          have ha := h₁ a (List.mem_cons_self _ _)
          have hb := h₂ b (List.mem_cons_self _ _)
          rw [digitChar_inj a ha b hb h.1,
            ih t2 (fun d hd => h₁ d (List.mem_cons_of_mem _ hd))
              (fun d hd => h₂ d (List.mem_cons_of_mem _ hd)) h.2]

lemma decRepr_inj {n₁ n₂ : Nat} (h : decRepr n₁ = decRepr n₂) : n₁ = n₂ := by
  rw [decRepr, decRepr] at h
  have h2 := List.reverse_injective h
  have h3 := map_digitChar_inj _ _
    (fun d hd => Nat.digits_lt_base (by norm_num) hd)
    (fun d hd => Nat.digits_lt_base (by norm_num) hd) h2
  have o1 := Nat.ofDigits_digits 10 n₁
  have o2 := Nat.ofDigits_digits 10 n₂
  rw [← o1, ← o2, h3]

/-- Cancellation of a digit block followed by a non-digit head. -/
lemma digits_append_cancel {d₁ d₂ x₁ x₂ : Str}
    (h₁ : ∀ c ∈ d₁, c.isDigit = true) (h₂ : ∀ c ∈ d₂, c.isDigit = true)
    (hx₁ : ∀ c, x₁.head? = some c → c.isDigit = false)
    (hx₂ : ∀ c, x₂.head? = some c → c.isDigit = false)
    (h : d₁ ++ x₁ = d₂ ++ x₂) : d₁ = d₂ ∧ x₁ = x₂ := by
  induction d₁ generalizing d₂ with
  | nil =>
      cases d₂ with
      | nil => exact ⟨rfl, h⟩
      | cons c t =>
          exfalso
          have hx : x₁ = c :: (t ++ x₂) := by simpa using h
          have hc : x₁.head? = some c := by rw [hx]; rfl
          have hf := hx₁ c hc
          have hd := h₂ c (List.mem_cons_self _ _)
          rw [hf] at hd
          cases hd
  | cons c t ih =>
      cases d₂ with
      | nil =>
          exfalso
          have hx : x₂ = c :: (t ++ x₁) := by simpa using h.symm
          have hc : x₂.head? = some c := by rw [hx]; rfl
          have hf := hx₂ c hc
          have hd := h₁ c (List.mem_cons_self _ _)
          rw [hf] at hd
          cases hd
      | cons c2 t2 =>
          injection h with hh ht
          subst hh
          obtain ⟨e1, e2⟩ := ih (fun a ha => h₁ a (List.mem_cons_of_mem _ ha))
            (fun a ha => h₂ a (List.mem_cons_of_mem _ ha)) ht
          exact ⟨by rw [e1], e2⟩

/-- Two temp names built from differently numbered connection threads
differ, even for different filenames. -/
lemma tempName_threadName_inj {n₁ n₂ : Nat} {f₁ f₂ : Str}
    (h : tempName (threadName n₁) f₁ = tempName (threadName n₂) f₂) : n₁ = n₂ := by
  simp only [tempName, threadName, List.append_assoc] at h
  have h2 := List.append_cancel_left h
  have h3 := List.append_cancel_left h2
  have h4 := digits_append_cancel (decRepr_digits n₁) (decRepr_digits n₂)
    (fun c hc => by
      have : c = ' ' := by
        rw [show ((" (process_request_thread)".toList : Str) ++
          ("_".toList ++ f₁)).head? = some ' ' from rfl] at hc
        exact (Option.some_inj.mp hc).symm
      rw [this]
      rfl)
    (fun c hc => by
      have : c = ' ' := by
        rw [show ((" (process_request_thread)".toList : Str) ++
          ("_".toList ++ f₂)).head? = some ' ' from rfl] at hc
        exact (Option.some_inj.mp hc).symm
      rw [this]
      rfl) h3
  exact decRepr_inj h4.1

lemma append_eq_pre {a₁ a₂ x₁ x₂ : Str} (h : a₁ ++ x₁ = a₂ ++ x₂) :
    pyStartswith a₂ a₁ = true ∨ pyStartswith a₁ a₂ = true := by
  induction a₁ generalizing a₂ with
  | nil =>
      left
      cases a₂ <;> rfl
  | cons c t ih =>
      cases a₂ with
      | nil => right; rfl
      | cons d u =>
          injection h with hh ht
          subst hh
          rcases ih ht with hp | hp
          · left
            simp [pyStartswith, hp]
          · right
            simp [pyStartswith, hp]

/-- No two in-flight uploads handled by distinct connection threads
observe the same temp path, even for uploads of the same target
filename (and also across storage areas). -/
lemma tempPathOf_inj (n₁ n₂ : Nat) (f₁ f₂ : Str) (hne : n₁ ≠ n₂) :
    tempPathOf n₁ f₁ ≠ tempPathOf n₂ f₂ := by
  intro heq
  obtain ⟨hd₁, hs₁⟩ := dir_facts _ (gtd_mem f₁)
  obtain ⟨hd₂, hs₂⟩ := dir_facts _ (gtd_mem f₂)
  rw [tempPathOf, tempPathOf, tempPath, tempPath,
    pyJoin_not_slash _ _ hd₁ hs₁ (tempName_not_slash _ _),
    pyJoin_not_slash _ _ hd₂ hs₂ (tempName_not_slash _ _)] at heq
  rcases gtd_mem f₁ with h1 | h1 | h1 <;> rcases gtd_mem f₂ with h2 | h2 | h2 <;>
    rw [h1, h2] at heq <;>
    first
    | · have hm := List.cons_injective (List.append_cancel_left heq)
        exact hne (tempName_threadName_inj hm)
    | · rcases append_eq_pre heq with hp | hp <;> revert hp <;> decide

/-! ## Pool-state invariant (C9) -/

/-- Conservation invariant of the pool model: job identifiers are never
duplicated, and every submitted job is in exactly one of the pending,
running, done, or cancelled states. -/
def poolInv (s : PoolState) : Prop :=
  s.submitted.Nodup ∧
  ∀ a : Nat, s.submitted.count a =
    (s.pending ++ s.running ++ s.done ++ s.cancelled).count a

lemma poolStep_inv (s : PoolState) (e : PoolEvt) (h : poolInv s) :
    poolInv (poolStep s e) := by
  obtain ⟨hn, hc⟩ := h
  cases e with
  | submit j =>
      by_cases hj : j ∈ s.submitted
      · simpa [poolStep, hj] using ⟨hn, hc⟩
      · refine ⟨by simp [poolStep, hj, List.nodup_append, hn], ?_⟩
        intro a
        have := hc a
        by_cases haj : a = j <;>
          simp [poolStep, hj, List.count_append, List.count_cons, haj] at this ⊢ <;>
          omega
  | start =>
      rcases hp : s.pending with _ | ⟨j, rest⟩
      · simpa [poolStep, hp] using ⟨hn, hc⟩
      · by_cases hr : s.running.length < max_workers
        · refine ⟨by simpa [poolStep, hp, hr] using hn, ?_⟩
          intro a
          have := hc a
          rw [hp] at this
          by_cases haj : a = j <;>
            simp [poolStep, hp, hr, List.count_append, List.count_cons, haj] at this ⊢ <;>
            omega
        · simpa [poolStep, hp, hr] using ⟨hn, hc⟩
  | finish j =>
      by_cases hj : j ∈ s.running
      · refine ⟨by simpa [poolStep, hj] using hn, ?_⟩
        intro a
        have := hc a
        have hcount : 0 < s.running.count j := List.count_pos_iff.mpr hj
        by_cases haj : a = j
        · subst haj
          simp [poolStep, hj, List.count_append, List.count_cons, List.count_erase] at this ⊢
          omega
        · simp [poolStep, hj, List.count_append, List.count_cons, List.count_erase,
            haj, Ne.symm haj] at this ⊢
          omega
      · simpa [poolStep, hj] using ⟨hn, hc⟩
  | cancelTimeout j =>
      by_cases hj : j ∈ s.pending
      · refine ⟨by simpa [poolStep, hj] using hn, ?_⟩
        intro a
        have := hc a
        have hcount : 0 < s.pending.count j := List.count_pos_iff.mpr hj
        by_cases haj : a = j
        · subst haj
          simp [poolStep, hj, List.count_append, List.count_cons, List.count_erase] at this ⊢
          omega
        · simp [poolStep, hj, List.count_append, List.count_cons, List.count_erase,
            haj, Ne.symm haj] at this ⊢
          omega
      · simpa [poolStep, hj] using ⟨hn, hc⟩

lemma runPool_inv (evts : List PoolEvt) : poolInv (runPool evts) := by
  rw [runPool]
  have : poolInv poolInit := ⟨List.nodup_nil, fun a => rfl⟩
  generalize poolInit = s at this ⊢
  induction evts generalizing s with
  | nil => exact this
  | cons e t ih => exact ih _ (poolStep_inv _ _ this)

/-- Event schedule with six submissions against the five-worker pool in
which the sixth dispatcher's await times out while its job is still
queued: `future.cancel()` then succeeds and the job never runs. -/
def overCapSchedule : List PoolEvt :=
  [.submit 1, .submit 2, .submit 3, .submit 4, .submit 5, .submit 6,
   .start, .start, .start, .start, .start, .cancelTimeout 6,
   .finish 1, .finish 2, .finish 3, .finish 4, .finish 5]

/-- C9 counterexample: it is not true that total completions equal
total submissions once the pool quiesces — a job still pending when its
dispatcher times out is cancelled and never completes (6 submissions,
5 completions). -/
theorem c9_counterexample :
    ¬ (∀ evts : List PoolEvt,
        (runPool evts).pending = [] → (runPool evts).running = [] →
        (runPool evts).done.length = (runPool evts).submitted.length) := by
  intro h
  have := h overCapSchedule (by decide) (by decide)
  revert this
  decide

/-- C9 (amended): the pool neither duplicates nor loses track of jobs —
submitted job identifiers stay distinct and every submitted job is in
exactly one of the pending/running/done/cancelled states (so
completions can fall short of submissions only by jobs cancelled while
still pending after a dispatcher timeout); and no two in-flight jobs
from distinct connection threads observe the same temp path, including
two concurrent uploads of the same target filename. -/
theorem c9_no_drop_no_duplicate_unique_temp :
    (∀ evts : List PoolEvt,
      (runPool evts).submitted.Nodup ∧
      (runPool evts).submitted.Perm
        ((runPool evts).pending ++ (runPool evts).running ++
          (runPool evts).done ++ (runPool evts).cancelled) ∧
      ((runPool evts).cancelled = [] →
        (runPool evts).pending = [] → (runPool evts).running = [] →
        (runPool evts).done.length = (runPool evts).submitted.length)) ∧
    (∀ (n₁ n₂ : Nat) (f : Str), n₁ ≠ n₂ → tempPathOf n₁ f ≠ tempPathOf n₂ f) ∧
    (∀ (n₁ n₂ : Nat) (f₁ f₂ : Str), n₁ ≠ n₂ → tempPathOf n₁ f₁ ≠ tempPathOf n₂ f₂) := by
  refine ⟨?_, fun n₁ n₂ f => tempPathOf_inj n₁ n₂ f f, tempPathOf_inj⟩
  intro evts
  obtain ⟨hn, hc⟩ := runPool_inv evts
  have hperm : (runPool evts).submitted.Perm
      ((runPool evts).pending ++ (runPool evts).running ++
        (runPool evts).done ++ (runPool evts).cancelled) := by
    rw [List.perm_iff_count]
    intro a
    exact hc a
  refine ⟨hn, hperm, ?_⟩
  intro hcan hpen hrun
  have := hperm.length_eq
  rw [hcan, hpen, hrun] at this
  simpa using this.symm

/-- Witness for C9: the conservation statement at the over-capacity
schedule, and temp-path uniqueness for two concrete threads uploading
the same filename. -/
theorem c9_no_drop_no_duplicate_unique_temp_witness :
    (runPool overCapSchedule).submitted.Perm
      ((runPool overCapSchedule).pending ++ (runPool overCapSchedule).running ++
        (runPool overCapSchedule).done ++ (runPool overCapSchedule).cancelled) ∧
    tempPathOf 1 "x.wav".toList ≠ tempPathOf 2 "x.wav".toList := by
  exact ⟨(c9_no_drop_no_duplicate_unique_temp.1 overCapSchedule).2.1,
    c9_no_drop_no_duplicate_unique_temp.2.1 1 2 "x.wav".toList (by decide)⟩

/-! ## Path confinement of GET and DELETE (C10) -/

lemma takeWhile_append_not {q : Char → Bool} {a : Char} (xs ys : Str)
    (ha : q a = false) : (xs ++ a :: ys).takeWhile q = xs.takeWhile q := by
  induction xs with
  | nil => simp [List.takeWhile_cons, ha]
  | cons x t ih =>
      by_cases hx : q x = true
      · simp [List.takeWhile_cons, hx, ih]
      · simp only [Bool.not_eq_true] at hx
        simp [List.takeWhile_cons, hx]

lemma pyBasename_no_slash (l : Str) : ∀ c ∈ pyBasename l, c ≠ '/' := by
  intro c hc
  rw [pyBasename, List.mem_reverse] at hc
  have := List.mem_takeWhile_imp hc
  simpa using this

lemma pyBasename_slash_cons (t : Str) : pyBasename ('/' :: t) = pyBasename t := by
  rw [pyBasename, pyBasename, List.reverse_cons,
    takeWhile_append_not _ _ (by decide)]

lemma basename_lstrip (p : Str) : pyBasename (lstripSlash p) = pyBasename p := by
  induction p with
  | nil => rfl
  | cons c t ih =>
      by_cases hc : c = '/'
      · subst hc
        rw [show lstripSlash ('/' :: t) = lstripSlash t from by
            simp [lstripSlash, List.dropWhile_cons], ih, pyBasename_slash_cons]
      · rw [show lstripSlash (c :: t) = c :: t from by
            simp [lstripSlash, List.dropWhile_cons, hc]]

lemma basename_drop5_tts (p : Str) (h : pyStartswith p "/tts/".toList = true) :
    pyBasename (p.drop 5) = pyBasename p := by
  obtain ⟨t, rfl⟩ := pyStartswith_exists h
  rw [show ("/tts/".toList ++ t).drop 5 = t from by simp, pyBasename, pyBasename,
    List.reverse_append, show ("/tts/".toList).reverse = '/' :: "stt/".toList from by decide,
    takeWhile_append_not _ _ (by decide)]

lemma basename_drop5_stt (p : Str) (h : pyStartswith p "/stt/".toList = true) :
    pyBasename (p.drop 5) = pyBasename p := by
  obtain ⟨t, rfl⟩ := pyStartswith_exists h
  rw [show ("/stt/".toList ++ t).drop 5 = t from by simp, pyBasename, pyBasename,
    List.reverse_append, show ("/stt/".toList).reverse = '/' :: "tts/".toList from by decide,
    takeWhile_append_not _ _ (by decide)]

/-- Well-formed filesystem: the storage directories themselves and
their `.`/`..` pseudo-entries are not regular files (as on every real
filesystem). -/
def wfFS (fs : FS) : Prop :=
  ∀ d ∈ [recordings_dir, tts_dir, stt_dir], ∀ n ∈ ([[], ['.'], ['.', '.']] : List Str),
    isFileEntry (fs (pyJoin d n)) = false

lemma route_file_props (d : Str) (hd3 : d = recordings_dir ∨ d = tts_dir ∨ d = stt_dir)
    (bn : Str) (fs : FS) (hwf : wfFS fs) (b : List Nat)
    (hfs : fs (pyJoin d bn) = some (.file b)) (hnos : ∀ c ∈ bn, c ≠ '/') :
    pyJoin d bn = d ++ '/' :: bn ∧ bn ≠ [] ∧ bn ≠ ['.'] ∧ bn ≠ ['.', '.'] := by
  have hdmem : d ∈ [recordings_dir, tts_dir, stt_dir] := by
    rcases hd3 with rfl | rfl | rfl <;> simp
  have hgen : ∀ n ∈ ([[], ['.'], ['.', '.']] : List Str), bn ≠ n := by
    intro n hn h0
    have hw := hwf d hdmem n hn
    rw [← h0, hfs] at hw
    simp [isFileEntry] at hw
  obtain ⟨hdne, hdsl⟩ := dir_facts d hd3
  have hhead : bn.head? ≠ some '/' := by
    cases bn with
    | nil => simp
    | cons c t =>
        intro hx
        have hcx : c = '/' := by simpa using hx
        exact hnos c (List.mem_cons_self _ _) hcx
  exact ⟨pyJoin_not_slash d bn hdne hdsl hhead,
    hgen [] (by simp), hgen ['.'] (by simp), hgen ['.', '.'] (by simp)⟩

/-- C10: every successful GET reads, and every successful DELETE
removes, exactly the path obtained by joining one of the three
configured storage directories with the basename of the URL path; that
basename contains no separator and is never `.` or `..`, so no file
outside the three directories can be read or deleted, whatever `/` or
`..` segments the request path contains. -/
theorem c10_path_confinement (p : Str) (fs : FS) (hwf : wfFS fs) :
    (∀ fp b an, do_GET true p fs = .ok fp b an →
      ∃ d, (d = recordings_dir ∨ d = tts_dir ∨ d = stt_dir) ∧
        fp = pyJoin d (pyBasename p) ∧
        fp = d ++ '/' :: pyBasename p ∧
        (∀ c ∈ pyBasename p, c ≠ '/') ∧
        pyBasename p ≠ [] ∧ pyBasename p ≠ ['.'] ∧ pyBasename p ≠ ['.', '.'] ∧
        fs fp = some (.file b)) ∧
    (∀ fp, (do_DELETE true p fs).1 = .deleted fp →
      fp = pyJoin recordings_dir (pyBasename p) ∧
      fp = recordings_dir ++ '/' :: pyBasename p ∧
      (∀ c ∈ pyBasename p, c ≠ '/') ∧
      pyBasename p ≠ [] ∧ pyBasename p ≠ ['.'] ∧ pyBasename p ≠ ['.', '.']) := by
  constructor
  · intro fp b an hok
    by_cases hstat : p = "/status".toList
    · rw [do_GET, if_neg (by simp), if_pos hstat] at hok
      cases hok
    · by_cases htts : pyStartswith p "/tts/".toList = true
      · rw [do_GET_tts_route p fs htts, basename_drop5_tts p htts] at hok
        rcases hfs : fs (pyJoin tts_dir (pyBasename p)) with _ | e
        · rw [if_pos hfs] at hok
          cases hok
        · rw [if_neg (by rw [hfs]; simp), serve_file, hfs] at hok
          cases e with
          | file b0 =>
              cases hok
              obtain ⟨hj, h1, h2, h3⟩ := route_file_props tts_dir (Or.inr (Or.inl rfl))
                (pyBasename p) fs hwf _ hfs (pyBasename_no_slash p)
              exact ⟨tts_dir, Or.inr (Or.inl rfl), rfl, hj,
                pyBasename_no_slash p, h1, h2, h3, hfs⟩
          | toolOutput c => cases hok
          | dir => cases hok
      · by_cases hstt : pyStartswith p "/stt/".toList = true
        · have htts' : pyStartswith p "/tts/".toList = false := by
            simpa using htts
          rw [do_GET_stt_route p fs hstt htts', basename_drop5_stt p hstt] at hok
          rcases hfs : fs (pyJoin stt_dir (pyBasename p)) with _ | e
          · rw [if_pos hfs] at hok
            cases hok
          · rw [if_neg (by rw [hfs]; simp), serve_file, hfs] at hok
            cases e with
            | file b0 =>
                cases hok
                obtain ⟨hj, h1, h2, h3⟩ := route_file_props stt_dir (Or.inr (Or.inr rfl))
                  (pyBasename p) fs hwf _ hfs (pyBasename_no_slash p)
                exact ⟨stt_dir, Or.inr (Or.inr rfl), rfl, hj,
                  pyBasename_no_slash p, h1, h2, h3, hfs⟩
            | toolOutput c => cases hok
            | dir => cases hok
        · have htts' : pyStartswith p "/tts/".toList = false := by simpa using htts
          have hstt' : pyStartswith p "/stt/".toList = false := by simpa using hstt
          rw [do_GET_perm_route p fs hstat htts' hstt', basename_lstrip p] at hok
          by_cases hbn : pyBasename p = []
          · rw [if_pos hbn] at hok
            cases hok
          · rw [if_neg hbn] at hok
            rcases hfs : fs (pyJoin recordings_dir (pyBasename p)) with _ | e
            · rw [if_pos hfs] at hok
              cases hok
            · rw [if_neg (by rw [hfs]; simp), serve_file, hfs] at hok
              cases e with
              | file b0 =>
                  cases hok
                  obtain ⟨hj, h1, h2, h3⟩ := route_file_props recordings_dir (Or.inl rfl)
                    (pyBasename p) fs hwf _ hfs (pyBasename_no_slash p)
                  exact ⟨recordings_dir, Or.inl rfl, rfl, hj,
                    pyBasename_no_slash p, h1, h2, h3, hfs⟩
              | toolOutput c => cases hok
              | dir => cases hok
  · intro fp hdel
    rw [do_DELETE, if_neg (by simp)] at hdel
    simp only [basename_lstrip p] at hdel
    by_cases hbn : pyBasename p = []
    · rw [if_pos hbn] at hdel
      cases hdel
    · rw [if_neg hbn] at hdel
      rcases hfs : fs (pyJoin recordings_dir (pyBasename p)) with _ | e
      · rw [hfs] at hdel
        cases hdel
      · rw [hfs] at hdel
        cases e with
        | file b0 =>
            cases hdel
            obtain ⟨hj, h1, h2, h3⟩ := route_file_props recordings_dir (Or.inl rfl)
              (pyBasename p) fs hwf _ hfs (pyBasename_no_slash p)
            exact ⟨rfl, hj, pyBasename_no_slash p, h1, h2, h3⟩
        | toolOutput c => cases hdel
        | dir => cases hdel

/-- Filesystem of the C10 witness. -/
def fsWitnessC10 : FS :=
  fun q => if q = "/var/spool/asterisk/recording/a.wav".toList then some (.file [7])
    else none

/-- Witness for C10: a traversal-style GET that succeeds lands inside
the recordings directory at the basename of the request path. -/
theorem c10_path_confinement_witness :
    ∃ d, (d = recordings_dir ∨ d = tts_dir ∨ d = stt_dir) ∧
      "/var/spool/asterisk/recording/a.wav".toList =
        pyJoin d (pyBasename "/x/../a.wav".toList) ∧
      "/var/spool/asterisk/recording/a.wav".toList =
        d ++ '/' :: pyBasename "/x/../a.wav".toList ∧
      (∀ c ∈ pyBasename "/x/../a.wav".toList, c ≠ '/') ∧
      pyBasename "/x/../a.wav".toList ≠ [] ∧
      pyBasename "/x/../a.wav".toList ≠ ['.'] ∧
      pyBasename "/x/../a.wav".toList ≠ ['.', '.'] ∧
      fsWitnessC10 "/var/spool/asterisk/recording/a.wav".toList = some (.file [7]) :=
  (c10_path_confinement "/x/../a.wav".toList fsWitnessC10 (by unfold wfFS; decide)).1
    "/var/spool/asterisk/recording/a.wav".toList [7] "a.wav".toList (by decide)

/-- Witness for C6 at the concrete inputs of the spec's test list. -/
theorem c6_router_prefix_pure_witness :
    get_target_directory "tts_x.wav".toList = tts_dir ∧
    get_target_directory "placa_y.wav".toList = stt_dir ∧
    get_target_directory "plain.wav".toList = recordings_dir :=
  ⟨((c6_router_prefix_pure "tts_x.wav".toList).2.1 (by decide)).1,
   ((c6_router_prefix_pure "placa_y.wav".toList).2.2.1 (Or.inl (by decide))).1,
   ((c6_router_prefix_pure "plain.wav".toList).2.2.2.1 (by decide) (by decide) (by decide)).1⟩

end AsteriskServer
